import Mathlib

/-!
# honeytrap: plugin loading, teardown and the file-dump module

A shallow embedding of `src/plugin.c` (`load_plugins`, `init_plugin`,
`unload_plugins`, `unload_at_err`) and of the parts of
`src/modules/htm_aSaveFile.c` that register hooks and format the dump file name.

Conventions of the embedding
* C strings are `String`s, one `Char` per C `char`; `strlen` is `String.length`.
* Pointers to functions and module handles are addresses (`Nat`), `0` is `NULL`.
* The global `plugin_list` (a singly linked list) is a `List Plugin`, head first.
* Everything the process cannot decide by itself (the directory contents, the
  result of `malloc`, `dlopen`, `dlsym`, `dlclose`, the code behind a function
  address) is read from a `World`.
* Observable actions (`dlclose`, calls through a function pointer, calls of
  `init_plugin`, the error log of `unload_plugins`) are appended to
  `State.trace` in program order.
* `free`, `stat`, `closedir` and the output on stdout and stderr have no effect
  on the modelled state and are left out.
-/

namespace Honeytrap

/-! ## Data model -/

/-- Modelled from the spec: the hook table entry of `plughook.h` (not under src/).
The spec gives it a hook point, a contributor name and a callback; the call sites
`add_unload_func_to_list(name, "plugin_unload", f)` and
`unhook(&pluginlist_process_attack, module_name, "save_to_file")` add a function
name. -/
structure HookEntry where
  hook : String
  mname : String
  fname : String
  func : Nat
deriving DecidableEq, Repr

/-- Modelled from the spec: the hook table, all entries in registration order; the
entry list of a hook point is the sublist of the entries that carry its name. -/
abbrev HookTable := List HookEntry

/-- The hook point of `add_unload_func_to_list` / `plughook_unload_plugins`. -/
def unload_hook : String := "unload_plugins"

/-- The hook point behind `pluginlist_process_attack`. -/
def attack_hook : String := "process_attack"

/-- The `Plugin` record as `init_plugin` fills it (`next` is the list structure);
`none` is a `NULL` string pointer. -/
structure Plugin where
  handle : Nat
  name : Option String
  version : Option String
  filename : Option String
deriving DecidableEq, Repr

/-- Observable actions, in program order. -/
inductive Event where
  | init_plugin (plugin_name : Option String)
  | dlclose (handle : Nat)
  | call (func : Nat)
  | logmsg (name : Option String)
deriving DecidableEq, Repr

/-- The globals `plugin_list` and the hook table, with the trace of actions. -/
structure State where
  plugin_list : List Plugin
  hooks : HookTable
  trace : List Event
deriving DecidableEq, Repr

/-- What `dlopen` and the four `dlsym` lookups of `init_plugin` yield for one file.
`handle` and `dlerror` are the two values tested after `dlopen`. A symbol is
`none` when `dlsym` returns `NULL` and `dlerror()` reports it (the only case the
loader treats as a failure) and `some v` when the module defines it; the address
of a defined object or function is not `NULL`. -/
structure Module where
  handle : Nat
  dlerror : Option String
  module_name : Option String
  module_version : Option String
  plugin_unload : Option Nat
  plugin_init : Option Nat

/-- The environment of the process.
* `opendir`: whether `opendir(dir)` returns a stream;
* `readdir`: the entry names `scandir` collects (`none`: `scandir` fails);
* `malloc_path`, `malloc_plugin`, `malloc_handle`: whether the three checked
  `malloc` calls (plugin.c lines 54, 77, 92) return memory;
* `dlopen`, `dlclose`: the dynamic linker;
* `code`: the effect on the hook table of calling the function at an address
  (plugin callbacks reach the host only through the hook registration calls);
* `accept`: whether the hook table takes a new entry (the result that
  `add_unload_func_to_list` reports);
* `init_plugin_hooks`: the function of that name in plughook.c (not under src/). -/
structure World where
  opendir : String → Bool
  readdir : String → Option (List String)
  malloc_path : String → String → Bool
  malloc_plugin : Option String → Bool
  malloc_handle : String → Bool
  dlopen : String → Module
  dlclose : Nat → Int
  code : Nat → HookTable → HookTable
  accept : HookTable → HookEntry → Bool
  init_plugin_hooks : HookTable → HookTable

/-! ## Hook table operations (plughook.c) -/

/-- Modelled from the spec: hook registration (`register(hook_point,
contributor_name, callback)`, plughook.c is not under src/): an accepted entry is
appended to the ordered list, a rejected one leaves the table as it was; the
result says which. -/
def add_func_to_list (w : World) (hook : String) (hooks : HookTable)
    (mname fname : String) (func : Nat) : Bool × HookTable :=
  let e : HookEntry := { hook := hook, mname := mname, fname := fname, func := func }
  if w.accept hooks e then (true, hooks ++ [e]) else (false, hooks)

/-- Modelled from the spec: `add_unload_func_to_list`, registration on the unload
hook point. -/
def add_unload_func_to_list (w : World) (hooks : HookTable)
    (mname fname : String) (func : Nat) : Bool × HookTable :=
  add_func_to_list w unload_hook hooks mname fname func

/-- Modelled from the spec: `add_attack_func_to_list`, registration on the attack
hook point. -/
def add_attack_func_to_list (w : World) (hooks : HookTable)
    (mname fname : String) (func : Nat) : Bool × HookTable :=
  add_func_to_list w attack_hook hooks mname fname func

/-- Modelled from the spec: `unhook(&list, mname, fname)` (plughook.c is not under
src/) removes from one hook point the entries of the named contributor and
function. -/
def unhook (hook : String) (mname fname : String) (hooks : HookTable) : HookTable :=
  hooks.filter (fun e => !(e.hook == hook && e.mname == mname && e.fname == fname))

/-- The call of the callback of one hook table entry. -/
def call_hook (w : World) (st : State) (e : HookEntry) : State :=
  { st with hooks := w.code e.func st.hooks, trace := st.trace ++ [Event.call e.func] }

/-- Modelled from the spec: `plughook_unload_plugins` (plughook.c is not under
src/) is the dispatch of the unload hook point: every callback registered for it
is invoked, in registration order. -/
def plughook_unload_plugins (w : World) (s : State) : State :=
  (s.hooks.filter (fun e => e.hook == unload_hook)).foldl (call_hook w) s

/-! ## plugin.c -/

/-- The function `unload_at_err`: close the handle when there is one. -/
def unload_at_err (plugin : Option Plugin) (s : State) : State :=
  match plugin with
  | some p =>
    if p.handle ≠ 0 then { s with trace := s.trace ++ [Event.dlclose p.handle] } else s
  | none => s

/-- Lines 155-160 of `init_plugin`: walk to the last node and link the new one. -/
def attach : List Plugin → Plugin → List Plugin
  | [], new_plugin => [new_plugin]
  | p :: rest, new_plugin => p :: attach rest new_plugin

/-- The function `init_plugin`; the result is the returned `int` and the state. -/
def init_plugin (w : World) (plugin_name : Option String) (s0 : State) : Int × State :=
  let s : State := { s0 with trace := s0.trace ++ [Event.init_plugin plugin_name] }
  if w.malloc_plugin plugin_name = false then (-1, s) else
  match plugin_name with
  | none => (-1, s)
  | some path =>
    if w.malloc_handle path = false then (-1, s) else
    let m := w.dlopen path
    let new_plugin : Plugin :=
      { handle := m.handle, name := none, version := none, filename := some path }
    if m.handle = 0 ∧ m.dlerror.isSome then (-1, unload_at_err (some new_plugin) s) else
    match m.module_name with
    | none => (-1, unload_at_err (some new_plugin) s)
    | some name =>
      let new_plugin := { new_plugin with name := some name }
      match m.module_version with
      | none => (-1, unload_at_err (some new_plugin) s)
      | some version =>
        let new_plugin := { new_plugin with version := some version }
        match m.plugin_unload with
        | none => (-1, unload_at_err (some new_plugin) s)
        | some unload_plugin =>
          let r := add_unload_func_to_list w s.hooks name "plugin_unload" unload_plugin
          if r.1 = false then (-1, unload_at_err (some new_plugin) s) else
          let s := { s with hooks := r.2 }
          match m.plugin_init with
          | none => (-1, s)
          | some init =>
            let s := { s with hooks := w.code init s.hooks,
                              trace := s.trace ++ [Event.call init] }
            (1, { s with plugin_list := attach s.plugin_list new_plugin })

/-- The loop of `unload_plugins`: from the head of the list on, close the handle
of each node, log a failed close, and step to `next`. -/
def unload_loop (w : World) : List Plugin → State → State
  | [], s => { s with plugin_list := [] }
  | p :: cur_plugin, s =>
    let t := s.trace ++ [Event.dlclose p.handle]
    let t := if w.dlclose p.handle ≠ 0 then t ++ [Event.logmsg p.name] else t
    unload_loop w cur_plugin { s with plugin_list := cur_plugin, trace := t }

/-- The function `unload_plugins`. -/
def unload_plugins (w : World) (s : State) : State :=
  let s := plughook_unload_plugins w s
  unload_loop w s.plugin_list s

/-! ## Discovery: `scandir`, `alphasort`, `fnmatch`, `snprintf` -/

/-- Byte-wise comparison of two C strings (`strcmp`, the `strcoll` of the C locale). -/
def strcmp : List Char → List Char → Int
  | [], [] => 0
  | [], _ :: _ => -1
  | _ :: _, [] => 1
  | a :: as, b :: bs =>
    if a.toNat < b.toNat then -1 else if b.toNat < a.toNat then 1 else strcmp as bs

/-- The comparison `alphasort` that `scandir` sorts with: `a` may stand before `b`. -/
def alphasort (a b : String) : Prop := strcmp a.data b.data ≤ 0

instance alphasort_decidable : DecidableRel alphasort :=
  fun a b => inferInstanceAs (Decidable (strcmp a.data b.data ≤ 0))

/-- The rest of a pattern after a `*`: try every tail of the string. -/
def star (f : List Char → Bool) : List Char → Bool
  | [] => f []
  | c :: s => f (c :: s) || star f s

/-- Shell pattern matching on characters with flags 0: `*` is any run of
characters, `?` any one character, every other character stands for itself
(the pattern of `load_plugins` has no bracket or backslash). -/
def glob : List Char → List Char → Bool
  | [] => fun s => s.isEmpty
  | c :: p => fun s =>
    if c = '*' then star (glob p) s
    else match s with
      | [] => false
      | d :: t => if c = '?' then glob p t else c == d && glob p t

/-- The call `fnmatch(pattern, string, 0) == 0`. -/
def fnmatch (pattern string : String) : Bool := glob pattern.data string.data

/-- The call `snprintf(buf, size, ...)`: at most `size - 1` characters of the
formatted text are stored. -/
def snprintf (size : Nat) (text : String) : String := ⟨text.data.take (size - 1)⟩

/-- One round of the loop of `load_plugins` for the entry `d_name`; `none` is the
`return(-1)` of line 56. -/
def load_entry (w : World) (dir d_name : String) (s : State) : Option State :=
  if fnmatch "htm_*.so" d_name then
    if w.malloc_path dir d_name = false then none
    else
      let full_path := snprintf (dir.length + d_name.length + 2) (dir ++ "/" ++ d_name)
      some (init_plugin w (some full_path) s).2
  else some s

/-- The loop `while(n--)` of `load_plugins` over `namelist[n]`. -/
def load_loop (w : World) (dir : String) (namelist : List String) : Nat → State → Int × State
  | 0, s => (0, s)
  | n + 1, s =>
    match namelist[n]? with
    | none => load_loop w dir namelist n s
    | some d_name =>
      match load_entry w dir d_name s with
      | none => (-1, s)
      | some s1 => load_loop w dir namelist n s1

/-- The function `load_plugins`; `scandir(dir, &namelist, 0, alphasort)` is the
sorted list of the entry names. -/
def load_plugins (w : World) (dir : String) (s0 : State) : Int × State :=
  let s : State := { s0 with plugin_list := [] }
  let s : State := { s with hooks := w.init_plugin_hooks s.hooks }
  if w.opendir dir = false then (-1, s)
  else
    match w.readdir dir with
    | none => (-1, s)
    | some entries =>
      let namelist := entries.insertionSort alphasort
      load_loop w dir namelist namelist.length s

/-! ## Reading the trace -/

/-- The handles passed to `dlclose`, in order. -/
def released (t : List Event) : List Nat :=
  t.filterMap (fun e => match e with | Event.dlclose h => some h | _ => none)

/-- The arguments of the calls of `init_plugin`, in order. -/
def loader_calls (t : List Event) : List (Option String) :=
  t.filterMap (fun e => match e with | Event.init_plugin p => some p | _ => none)

/-- The functions called through a pointer, in order. -/
def invoked (t : List Event) : List Nat :=
  t.filterMap (fun e => match e with | Event.call f => some f | _ => none)

/-! ## The module htm_aSaveFile -/

namespace aSaveFile

/-- The function `plugin_register_hooks`: register `save_to_file` (the function at
address `save_to_file`) on the attack hook point; the result of the registration
is not looked at. -/
def plugin_register_hooks (w : World) (module_name : String) (save_to_file : Nat)
    (hooks : HookTable) : HookTable :=
  (add_attack_func_to_list w hooks module_name "save_to_file" save_to_file).2

/-- The function `plugin_init`. -/
def plugin_init (w : World) (module_name : String) (save_to_file : Nat)
    (hooks : HookTable) : HookTable :=
  plugin_register_hooks w module_name save_to_file hooks

/-- The function `plugin_unload`. -/
def plugin_unload (module_name : String) (hooks : HookTable) : HookTable :=
  unhook attack_hook module_name "save_to_file" hooks

/-- The conversion `%u`. -/
def fmt_u (n : Nat) : String := Nat.repr n

/-- The conversion `%0<width>d`. -/
def fmt_0d (width : Nat) (n : Int) : String :=
  let digits := Nat.repr n.natAbs
  if n < 0 then "-" ++ String.mk (List.replicate (width - 1 - digits.length) '0') ++ digits
  else String.mk (List.replicate (width - digits.length) '0') ++ digits

/-- The fields of `struct tm` that `save_to_file` reads. -/
structure Tm where
  tm_year : Int
  tm_mon : Int
  tm_mday : Int

/-- The text that `save_to_file` formats into `filename` (lines 73-79); `file_time`
is the result of `localtime`, `none` for `NULL`. -/
def dump_filename (attacks_dir : String) (l_port pid : Nat) (file_time : Option Tm) : String :=
  match file_time with
  | none => attacks_dir ++ "/from_port_" ++ fmt_u l_port ++ "_" ++ fmt_u pid
  | some t =>
    attacks_dir ++ "/from_port_" ++ fmt_u l_port ++ "_" ++ fmt_u pid
      ++ "-" ++ fmt_0d 4 (t.tm_year + 1900) ++ "-" ++ fmt_0d 2 (t.tm_mon + 1)
      ++ "-" ++ fmt_0d 2 t.tm_mday

/-- The size of the buffer allocated for the file name (line 65). -/
def filename_alloc (attacks_dir : String) : Nat := attacks_dir.length + 34

/-- The bytes `sprintf` stores for a text: its characters and the closing NUL. -/
def sprintf_bytes (text : String) : Nat := text.length + 1

end aSaveFile

/-! ## Vocabulary of the statements -/

/-- The descriptor that a successful `init_plugin path` links into the list. -/
def descriptor (w : World) (path : String) : Plugin :=
  { handle := (w.dlopen path).handle, name := (w.dlopen path).module_name,
    version := (w.dlopen path).module_version, filename := some path }

/-- The entry that `init_plugin path` registers on the unload hook point. -/
def unload_entry (name : String) (unload_plugin : Nat) : HookEntry :=
  { hook := unload_hook, mname := name, fname := "plugin_unload", func := unload_plugin }

/-- The load of `plugin_name` succeeds in full: the allocations succeed, the module
opens, its four symbols resolve and the unload hook is accepted by the table. -/
def fully_loaded (w : World) (hooks : HookTable) (plugin_name : Option String) : Prop :=
  ∃ path name version unload_plugin init,
    plugin_name = some path ∧
    w.malloc_plugin (some path) = true ∧ w.malloc_handle path = true ∧
    ¬ ((w.dlopen path).handle = 0 ∧ (w.dlopen path).dlerror.isSome) ∧
    (w.dlopen path).module_name = some name ∧
    (w.dlopen path).module_version = some version ∧
    (w.dlopen path).plugin_unload = some unload_plugin ∧
    (w.dlopen path).plugin_init = some init ∧
    w.accept hooks (unload_entry name unload_plugin) = true

/-- The path that `load_plugins` builds for an entry, without the bound of
`snprintf`: the directory, a `/`, the entry name. -/
def full_path (dir d_name : String) : String := dir ++ "/" ++ d_name

/-- Follows the spec's words: the name begins with `htm_`, ends with `.so` and has
at least 7 characters. -/
def is_candidate (d_name : String) : Prop :=
  (∃ t, d_name.data = "htm_".data ++ t) ∧ (∃ t, d_name.data = t ++ ".so".data) ∧
    7 ≤ d_name.length

/-- The entry names that match the plugin pattern, in the order in which the loop of
`load_plugins` meets them: the sorted listing walked from its end. -/
def candidates (entries : List String) : List String :=
  (entries.insertionSort alphasort).reverse.filter (fun n => fnmatch "htm_*.so" n)

/-- The calls `init_plugin p` for the paths of a list, one after the other, each
result ignored. -/
def load_all (w : World) (paths : List String) (s : State) : State :=
  paths.foldl (fun st p => (init_plugin w (some p) st).2) s

/-- The state in which `load_plugins` starts its work: `plugin_list = NULL` and the
hook table after `init_plugin_hooks()`. -/
def reset (w : World) (s : State) : State :=
  { s with plugin_list := [], hooks := w.init_plugin_hooks s.hooks }

/-! ## Sample worlds -/

/-- A module that exports all four symbols; its callbacks are at `handle + 1`
(unload) and `handle + 2` (init). -/
def full_module (handle : Nat) (name : String) : Module :=
  { handle := handle, dlerror := none, module_name := some name,
    module_version := some "1.0", plugin_unload := some (handle + 1),
    plugin_init := some (handle + 2) }

/-- A world with a readable, empty plugin directory, enough memory, a hook table
that accepts every entry, callbacks that do nothing, and the given `dlopen`. -/
def world_of (dlopen : String → Module) : World :=
  { opendir := fun _ => true, readdir := fun _ => some [],
    malloc_path := fun _ _ => true, malloc_plugin := fun _ => true,
    malloc_handle := fun _ => true, dlopen := dlopen, dlclose := fun _ => 0,
    code := fun _ hooks => hooks, accept := fun _ _ => true,
    init_plugin_hooks := fun _ => [] }

/-- The state of a process that has loaded nothing. -/
def empty_state : State := { plugin_list := [], hooks := [], trace := [] }

/-- A world whose file `plugins/htm_noinit.so` exports `module_name`,
`module_version` and `plugin_unload` but no `plugin_init`. -/
def noinit_world : World :=
  world_of (fun _ => { full_module 70 "noinit" with plugin_init := none })

/-- A world whose file exports no `module_version`. -/
def noversion_world : World :=
  world_of (fun _ => { full_module 50 "noversion" with module_version := none })

/-- A world with three plugin files that export all four symbols. -/
def abc_world : World :=
  world_of (fun path =>
    if path = "plugins/htm_a.so" then full_module 10 "A"
    else if path = "plugins/htm_b.so" then full_module 20 "B"
    else full_module 30 "C")

/-- The state after loading the plugins A, B and C, in this order. -/
def loaded_abc : State :=
  (init_plugin abc_world (some "plugins/htm_c.so")
    (init_plugin abc_world (some "plugins/htm_b.so")
      (init_plugin abc_world (some "plugins/htm_a.so") empty_state).2).2).2

/-- A world with the module htm_aSaveFile: handle 40, `plugin_unload` at 41,
`plugin_init` at 42, `save_to_file` at 43; every `dlclose` fails. -/
def savefile_world : World :=
  { world_of (fun _ => full_module 40 "aSaveFile") with
    dlclose := fun _ => -1,
    code := fun f hooks =>
      if f = 41 then aSaveFile.plugin_unload "aSaveFile" hooks
      else if f = 42 then
        aSaveFile.plugin_init (world_of (fun _ => full_module 40 "aSaveFile"))
          "aSaveFile" 43 hooks
      else hooks }

/-- The state after loading htm_aSaveFile. -/
def loaded_savefile : State :=
  (init_plugin savefile_world (some "plugins/htm_aSaveFile.so") empty_state).2

/-- A world whose plugin directory lists `htm_b.so`, `notes.txt` and `htm_a.so`. -/
def listing_world : World :=
  { abc_world with readdir := fun _ => some ["htm_b.so", "notes.txt", "htm_a.so"] }

/-- A world whose plugin directory cannot be opened. -/
def unreadable_world : World :=
  { abc_world with opendir := fun _ => false }

/-- A world whose plugin directory lists three plugins, the second one without
`module_version`. -/
def mixed_world : World :=
  { world_of (fun path =>
      if path = "plugins/htm_a.so" then full_module 10 "A"
      else if path = "plugins/htm_b.so" then
        { full_module 20 "B" with module_version := none }
      else full_module 30 "C") with
    readdir := fun _ => some ["htm_a.so", "htm_b.so", "htm_c.so"] }

/-- A world that has no memory for the path of `htm_b.so`. -/
def oom_world : World :=
  { mixed_world with malloc_path := fun _ d_name => d_name != "htm_b.so" }

/-! ## The loader: `init_plugin` -/

theorem attach_eq_append (l : List Plugin) (p : Plugin) : attach l p = l ++ [p] := by
  induction l with
  | nil => rfl
  | cons q rest ih => simp [attach, ih]

theorem unload_at_err_plugin_list (p : Option Plugin) (s : State) :
    (unload_at_err p s).plugin_list = s.plugin_list := by
  unfold unload_at_err
  cases p with
  | none => rfl
  | some q => dsimp only; split <;> rfl

theorem unload_at_err_hooks (p : Option Plugin) (s : State) :
    (unload_at_err p s).hooks = s.hooks := by
  unfold unload_at_err
  cases p with
  | none => rfl
  | some q => dsimp only; split <;> rfl

/-- A load that succeeds in full returns 1, links the descriptor at the tail, and
leaves in the hook table what the init callback made of the table with the unload
entry appended. -/
theorem init_plugin_of_fully_loaded (w : World) (path name version : String)
    (unload_plugin init : Nat) (s : State)
    (hp : w.malloc_plugin (some path) = true) (hh : w.malloc_handle path = true)
    (ho : ¬ ((w.dlopen path).handle = 0 ∧ (w.dlopen path).dlerror.isSome))
    (hn : (w.dlopen path).module_name = some name)
    (hv : (w.dlopen path).module_version = some version)
    (hu : (w.dlopen path).plugin_unload = some unload_plugin)
    (hi : (w.dlopen path).plugin_init = some init)
    (ha : w.accept s.hooks (unload_entry name unload_plugin) = true) :
    init_plugin w (some path) s =
      (1, { plugin_list := s.plugin_list ++ [descriptor w path],
            hooks := w.code init (s.hooks ++ [unload_entry name unload_plugin]),
            trace := s.trace ++ [Event.init_plugin (some path), Event.call init] }) := by
  have ha2 : w.accept s.hooks
      { hook := unload_hook, mname := name, fname := "plugin_unload",
        func := unload_plugin } = true := ha
  simp [init_plugin, hp, hh, ho, hn, hv, hu, hi, ha2, add_unload_func_to_list,
    add_func_to_list, attach_eq_append, descriptor, unload_entry]

/-- A load that does not succeed in full returns -1 and leaves the list alone. -/
theorem init_plugin_of_not_fully_loaded (w : World) (plugin_name : Option String) (s : State)
    (h : ¬ fully_loaded w s.hooks plugin_name) :
    (init_plugin w plugin_name s).1 = -1 ∧
      (init_plugin w plugin_name s).2.plugin_list = s.plugin_list := by
  unfold init_plugin
  dsimp only
  split
  · exact ⟨rfl, rfl⟩
  · rename_i hp
    split
    · exact ⟨rfl, rfl⟩
    · rename_i path
      split
      · exact ⟨rfl, rfl⟩
      · rename_i hh
        split
        · exact ⟨rfl, unload_at_err_plugin_list _ _⟩
        · rename_i ho
          split
          · exact ⟨rfl, unload_at_err_plugin_list _ _⟩
          · rename_i name hn
            split
            · exact ⟨rfl, unload_at_err_plugin_list _ _⟩
            · rename_i version hv
              split
              · exact ⟨rfl, unload_at_err_plugin_list _ _⟩
              · rename_i unload_plugin hu
                split
                · exact ⟨rfl, unload_at_err_plugin_list _ _⟩
                · rename_i ha
                  split
                  · exact ⟨rfl, rfl⟩
                  · rename_i init hi
                    exfalso
                    apply h
                    refine ⟨path, name, version, unload_plugin, init, rfl, ?_, ?_, ho, hn, hv,
                      hu, hi, ?_⟩
                    · simpa using hp
                    · simpa using hh
                    · simp only [add_unload_func_to_list, add_func_to_list] at ha
                      by_cases hacc : w.accept s.hooks (unload_entry name unload_plugin) = true
                      · exact hacc
                      · exfalso
                        apply ha
                        have : w.accept s.hooks
                            { hook := unload_hook, mname := name, fname := "plugin_unload",
                              func := unload_plugin } = false := by
                          simpa [unload_entry] using hacc
                        simp [this]

/-- The hook table after a failing `init_plugin`: it is the table from before the
call, except when the failure is the missing `plugin_init`, where the unload entry
registered just before is still there. -/
theorem init_plugin_failure_hooks (w : World) (plugin_name : Option String) (s : State)
    (h : (init_plugin w plugin_name s).1 = -1) :
    (init_plugin w plugin_name s).2.hooks = s.hooks ∨
    ∃ path name unload_plugin, plugin_name = some path ∧
      (w.dlopen path).module_name = some name ∧
      (w.dlopen path).plugin_unload = some unload_plugin ∧
      (w.dlopen path).plugin_init = none ∧
      (init_plugin w plugin_name s).2.hooks = s.hooks ++ [unload_entry name unload_plugin] := by
  revert h
  unfold init_plugin
  dsimp only
  split
  · intro _; exact Or.inl rfl
  · rename_i hp
    split
    · intro _; exact Or.inl rfl
    · rename_i path
      split
      · intro _; exact Or.inl rfl
      · rename_i hh
        split
        · intro _; exact Or.inl (unload_at_err_hooks _ _)
        · rename_i ho
          split
          · intro _; exact Or.inl (unload_at_err_hooks _ _)
          · rename_i name hn
            split
            · intro _; exact Or.inl (unload_at_err_hooks _ _)
            · rename_i version hv
              split
              · intro _; exact Or.inl (unload_at_err_hooks _ _)
              · rename_i unload_plugin hu
                split
                · intro _; exact Or.inl (unload_at_err_hooks _ _)
                · rename_i ha
                  split
                  · rename_i hi
                    intro _
                    refine Or.inr ⟨path, name, unload_plugin, rfl, hn, hu, hi, ?_⟩
                    simp only [add_unload_func_to_list, add_func_to_list] at ha ⊢
                    by_cases hacc : w.accept s.hooks
                        { hook := unload_hook, mname := name, fname := "plugin_unload",
                          func := unload_plugin } = true
                    · simp [hacc, unload_entry]
                    · simp [hacc] at ha
                  · intro h1
                    simp at h1

/-- The two outcomes of `init_plugin` and what each does to the registry. -/
theorem init_plugin_cases (w : World) (plugin_name : Option String) (s : State) :
    ((init_plugin w plugin_name s).1 = 1 ↔ fully_loaded w s.hooks plugin_name) ∧
    ((init_plugin w plugin_name s).1 = 1 →
      ∃ path, plugin_name = some path ∧
        (init_plugin w plugin_name s).2.plugin_list = s.plugin_list ++ [descriptor w path]) ∧
    ((init_plugin w plugin_name s).1 ≠ 1 →
      (init_plugin w plugin_name s).1 = -1 ∧
        (init_plugin w plugin_name s).2.plugin_list = s.plugin_list) := by
  by_cases h : fully_loaded w s.hooks plugin_name
  · obtain ⟨path, name, version, unload_plugin, init, rfl, hp, hh, ho, hn, hv, hu, hi, ha⟩ := h
    have hful : fully_loaded w s.hooks (some path) :=
      ⟨path, name, version, unload_plugin, init, rfl, hp, hh, ho, hn, hv, hu, hi, ha⟩
    have e := init_plugin_of_fully_loaded w path name version unload_plugin init s
      hp hh ho hn hv hu hi ha
    refine ⟨?_, ?_, ?_⟩
    · rw [e]; exact ⟨fun _ => hful, fun _ => rfl⟩
    · intro _; exact ⟨path, rfl, by rw [e]⟩
    · intro hne; rw [e] at hne; exact absurd rfl hne
  · have e := init_plugin_of_not_fully_loaded w plugin_name s h
    refine ⟨?_, ?_, ?_⟩
    · constructor
      · intro h1; rw [e.1] at h1; exact absurd h1 (by decide)
      · intro hf; exact absurd hf h
    · intro h1; rw [e.1] at h1; exact absurd h1 (by decide)
    · intro _; exact e

/-- C4: a descriptor is linked into the registry iff the load succeeded in full.
`init_plugin` returns 1 exactly when the load succeeds in full; then the registry is
the previous registry, in its order, with the descriptor of the path appended at the
tail; every other return is -1 and leaves the registry as it was. -/
theorem init_plugin_registry_iff (w : World) (plugin_name : Option String) (s : State) :
    ((init_plugin w plugin_name s).1 = 1 ↔ fully_loaded w s.hooks plugin_name) ∧
    ((init_plugin w plugin_name s).1 = 1 →
      ∃ path, plugin_name = some path ∧
        (init_plugin w plugin_name s).2.plugin_list = s.plugin_list ++ [descriptor w path]) ∧
    ((init_plugin w plugin_name s).1 ≠ 1 →
      (init_plugin w plugin_name s).1 = -1 ∧
        (init_plugin w plugin_name s).2.plugin_list = s.plugin_list) :=
  init_plugin_cases w plugin_name s

/-- C9: a module that opens (non-NULL handle) but lacks `module_name`,
`module_version` or `plugin_unload` makes `init_plugin` return -1 after one
`dlclose` of the opened handle and nothing else: no function is called through a
pointer (the init callback is not invoked), the hook table and the registry are as
before. -/
theorem init_plugin_missing_symbol (w : World) (path : String) (s : State)
    (hp : w.malloc_plugin (some path) = true) (hh : w.malloc_handle path = true)
    (hopen : (w.dlopen path).handle ≠ 0)
    (hmiss : (w.dlopen path).module_name = none ∨ (w.dlopen path).module_version = none ∨
      (w.dlopen path).plugin_unload = none) :
    (init_plugin w (some path) s).1 = -1 ∧
    (init_plugin w (some path) s).2.trace =
      s.trace ++ [Event.init_plugin (some path), Event.dlclose (w.dlopen path).handle] ∧
    released (init_plugin w (some path) s).2.trace =
      released s.trace ++ [(w.dlopen path).handle] ∧
    invoked (init_plugin w (some path) s).2.trace = invoked s.trace ∧
    (init_plugin w (some path) s).2.hooks = s.hooks ∧
    (init_plugin w (some path) s).2.plugin_list = s.plugin_list := by
  cases hn : (w.dlopen path).module_name with
  | none =>
    simp [init_plugin, hp, hh, hopen, hn, unload_at_err, released, invoked,
      List.filterMap_append]
  | some name =>
    cases hv : (w.dlopen path).module_version with
    | none =>
      simp [init_plugin, hp, hh, hopen, hn, hv, unload_at_err, released, invoked,
        List.filterMap_append]
    | some version =>
      cases hu : (w.dlopen path).plugin_unload with
      | none =>
        simp [init_plugin, hp, hh, hopen, hn, hv, hu, unload_at_err, released, invoked,
          List.filterMap_append]
      | some unload_plugin =>
        rw [hn, hv, hu] at hmiss
        simp at hmiss

/-- C9 at a module without `module_version`: the hypotheses hold and the handle 50
is closed once. -/
theorem init_plugin_missing_symbol_witness :
    (init_plugin noversion_world (some "plugins/htm_nover.so") empty_state).1 = -1 ∧
    (init_plugin noversion_world (some "plugins/htm_nover.so") empty_state).2.trace =
      [Event.init_plugin (some "plugins/htm_nover.so"), Event.dlclose 50] :=
  have h := init_plugin_missing_symbol noversion_world "plugins/htm_nover.so" empty_state
    rfl rfl (by decide) (Or.inr (Or.inl rfl))
  ⟨h.1, h.2.1⟩

/-- C1 at a module without `plugin_init`: `init_plugin` returns -1 and leaves the
registry as it was, but the candidate's `plugin_unload` entry stays in the hook table
and the handle is not closed. -/
theorem init_plugin_noinit_keeps_unload_entry :
    (init_plugin noinit_world (some "plugins/htm_noinit.so") empty_state).1 = -1 ∧
    (init_plugin noinit_world (some "plugins/htm_noinit.so") empty_state).2.hooks =
      [unload_entry "noinit" 71] ∧
    (∃ e ∈ (init_plugin noinit_world (some "plugins/htm_noinit.so") empty_state).2.hooks,
      e.mname = "noinit") ∧
    released (init_plugin noinit_world (some "plugins/htm_noinit.so") empty_state).2.trace
      = [] ∧
    (init_plugin noinit_world (some "plugins/htm_noinit.so") empty_state).2.plugin_list.length
      = empty_state.plugin_list.length := by
  refine ⟨by decide, by decide, ⟨unload_entry "noinit" 71, by decide, rfl⟩, by decide,
    by decide⟩

/-! ## Teardown: `unload_plugins` -/

theorem released_append (a b : List Event) : released (a ++ b) = released a ++ released b := by
  simp [released, List.filterMap_append]

theorem dispatch_fold_frame (w : World) (l : List HookEntry) (s : State) :
    (l.foldl (call_hook w) s).plugin_list = s.plugin_list ∧
    released (l.foldl (call_hook w) s).trace = released s.trace := by
  induction l generalizing s with
  | nil => exact ⟨rfl, rfl⟩
  | cons e rest ih =>
    simp only [List.foldl_cons]
    obtain ⟨h1, h2⟩ := ih (call_hook w s e)
    refine ⟨h1, ?_⟩
    rw [h2]
    simp [call_hook, released_append, released]

theorem plughook_unload_plugins_frame (w : World) (s : State) :
    (plughook_unload_plugins w s).plugin_list = s.plugin_list ∧
    released (plughook_unload_plugins w s).trace = released s.trace :=
  dispatch_fold_frame w _ s

theorem unload_loop_spec (w : World) (l : List Plugin) (s : State) :
    (unload_loop w l s).plugin_list = [] ∧
    (unload_loop w l s).hooks = s.hooks ∧
    released (unload_loop w l s).trace = released s.trace ++ l.map Plugin.handle := by
  induction l generalizing s with
  | nil => simp [unload_loop]
  | cons p rest ih =>
    simp only [unload_loop]
    obtain ⟨h1, h2, h3⟩ := ih
      { s with plugin_list := rest,
               trace := if w.dlclose p.handle ≠ 0
                 then s.trace ++ [Event.dlclose p.handle] ++ [Event.logmsg p.name]
                 else s.trace ++ [Event.dlclose p.handle] }
    refine ⟨h1, h2, ?_⟩
    rw [h3]
    by_cases hc : w.dlclose p.handle ≠ 0
    · simp [hc, released_append, released]
    · simp [hc, released_append, released]

theorem unload_plugins_released (w : World) (s : State) :
    released (unload_plugins w s).trace = released s.trace ++ s.plugin_list.map Plugin.handle := by
  unfold unload_plugins
  dsimp only
  rw [(unload_loop_spec w _ _).2.2, (plughook_unload_plugins_frame w s).1,
    (plughook_unload_plugins_frame w s).2]

/-- C3, as the code has it: `unload_plugins` passes the handles to `dlclose` in load
order, from the head of the registry to its tail (for plugins loaded A, B, C the
release order is A, B, C). -/
theorem unload_plugins_releases_in_load_order (w : World) (s : State) :
    released (unload_plugins w s).trace =
      released s.trace ++ s.plugin_list.map Plugin.handle :=
  unload_plugins_released w s

/-- C3 refuted as stated: after loading A, B, C (handles 10, 20, 30) in this order,
`unload_plugins` releases 10, 20, 30 and not 30, 20, 10. -/
theorem unload_plugins_not_reverse_order :
    loaded_abc.plugin_list.map Plugin.handle = [10, 20, 30] ∧
    released loaded_abc.trace = [] ∧
    released (unload_plugins abc_world loaded_abc).trace = [10, 20, 30] ∧
    released (unload_plugins abc_world loaded_abc).trace ≠
      (loaded_abc.plugin_list.map Plugin.handle).reverse := by
  refine ⟨by decide, by decide, by decide, by decide⟩

/-- C7, as the code has it: whatever `dlclose` returns, after `unload_plugins` the
registry is empty and every handle of the registry has been passed to `dlclose`;
the hook table is what the dispatched unload callbacks left, `unload_plugins` removes
no entry itself. -/
theorem unload_plugins_empties_registry (w : World) (s : State) :
    (unload_plugins w s).plugin_list = [] ∧
    (∀ p ∈ s.plugin_list, p.handle ∈ released (unload_plugins w s).trace) ∧
    (released (unload_plugins w s).trace).length =
      (released s.trace).length + s.plugin_list.length ∧
    (unload_plugins w s).hooks = (plughook_unload_plugins w s).hooks := by
  refine ⟨?_, ?_, ?_, ?_⟩
  · exact (unload_loop_spec w _ _).1
  · intro p hp
    rw [unload_plugins_released]
    exact List.mem_append_right _ (List.mem_map_of_mem _ hp)
  · rw [unload_plugins_released]
    simp
  · exact (unload_loop_spec w _ _).2.1

/-- C7 refuted as stated: with htm_aSaveFile loaded, `unload_plugins` empties the
registry and the module unhooks `save_to_file`, but the entry on the unload hook point
is still in the hook table. -/
theorem unload_plugins_keeps_unload_entry :
    loaded_savefile.hooks =
      [unload_entry "aSaveFile" 41,
       { hook := attack_hook, mname := "aSaveFile", fname := "save_to_file", func := 43 }] ∧
    (unload_plugins savefile_world loaded_savefile).plugin_list = [] ∧
    (unload_plugins savefile_world loaded_savefile).hooks = [unload_entry "aSaveFile" 41] ∧
    (unload_plugins savefile_world loaded_savefile).hooks ≠ [] := by
  refine ⟨by decide, by decide, by decide, by decide⟩

/-! ## Discovery: order of `alphasort`, the pattern, the path -/

theorem strcmp_total (a b : List Char) : strcmp a b ≤ 0 ∨ strcmp b a ≤ 0 := by
  induction a generalizing b with
  | nil => cases b <;> simp [strcmp]
  | cons x xs ih =>
    cases b with
    | nil => simp [strcmp]
    | cons y ys =>
      simp only [strcmp]
      by_cases h1 : x.toNat < y.toNat
      · simp [h1]
      · by_cases h2 : y.toNat < x.toNat
        · simp [h2]
        · simp only [h1, h2, if_false]
          exact ih ys

theorem strcmp_trans (a b c : List Char) (hab : strcmp a b ≤ 0) (hbc : strcmp b c ≤ 0) :
    strcmp a c ≤ 0 := by
  induction a generalizing b c with
  | nil => cases c <;> simp [strcmp]
  | cons x xs ih =>
    cases b with
    | nil => simp [strcmp] at hab
    | cons y ys =>
      cases c with
      | nil => simp [strcmp] at hbc
      | cons z zs =>
        simp only [strcmp] at hab hbc ⊢
        by_cases h1 : x.toNat < y.toNat
        · by_cases h3 : y.toNat < z.toNat
          · have : x.toNat < z.toNat := by omega
            simp [this]
          · by_cases h4 : z.toNat < y.toNat
            · simp [h3, h4] at hbc
            · have : x.toNat < z.toNat := by omega
              simp [this]
        · by_cases h2 : y.toNat < x.toNat
          · simp [h1, h2] at hab
          · simp only [h1, h2, if_false] at hab
            by_cases h3 : y.toNat < z.toNat
            · have : x.toNat < z.toNat := by omega
              simp [this]
            · by_cases h4 : z.toNat < y.toNat
              · simp [h3, h4] at hbc
              · simp only [h3, h4, if_false] at hbc
                have e1 : ¬ x.toNat < z.toNat := by omega
                have e2 : ¬ z.toNat < x.toNat := by omega
                simp only [e1, e2, if_false]
                exact ih ys zs hab hbc

theorem scandir_sorted (entries : List String) :
    List.Sorted alphasort (entries.insertionSort alphasort) :=
  @List.sorted_insertionSort String alphasort _
    ⟨fun a b => strcmp_total a.data b.data⟩
    ⟨fun a b c => strcmp_trans a.data b.data c.data⟩ entries

theorem candidates_descending (entries : List String) :
    List.Sorted (fun a b => alphasort b a) (candidates entries) := by
  unfold candidates
  apply List.Pairwise.sublist (List.filter_sublist _)
  exact List.pairwise_reverse.mpr (scandir_sorted entries)

theorem candidates_perm (entries : List String) :
    (candidates entries).Perm (entries.filter (fun n => fnmatch "htm_*.so" n)) := by
  unfold candidates
  apply List.Perm.filter
  exact (List.reverse_perm _).trans (List.perm_insertionSort _ _)

theorem star_iff (f : List Char → Bool) (s : List Char) :
    star f s = true ↔ ∃ pre t, s = pre ++ t ∧ f t = true := by
  induction s with
  | nil =>
    simp only [star]
    constructor
    · intro h; exact ⟨[], [], rfl, h⟩
    · rintro ⟨pre, t, h, ht⟩
      have ht0 : t = [] := (List.append_eq_nil.mp h.symm).2
      rw [ht0] at ht
      exact ht
  | cons c s ih =>
    simp only [star, Bool.or_eq_true, ih]
    constructor
    · rintro (h | ⟨pre, t, rfl, h⟩)
      · exact ⟨[], c :: s, rfl, h⟩
      · exact ⟨c :: pre, t, rfl, h⟩
    · rintro ⟨pre, t, h, ht⟩
      cases pre with
      | nil =>
        left
        have : t = c :: s := by simpa using h.symm
        rw [← this]
        exact ht
      | cons d pre =>
        right
        have h2 : s = pre ++ t := by
          simp only [List.cons_append, List.cons.injEq] at h
          exact h.2
        exact ⟨pre, t, h2, ht⟩

theorem glob_lit (c : Char) (p s : List Char) (h1 : c ≠ '*') (h2 : c ≠ '?') :
    glob (c :: p) s = true ↔ ∃ t, s = c :: t ∧ glob p t = true := by
  cases s with
  | nil => simp [glob, h1]
  | cons d t =>
    simp only [glob, h1, h2, if_false, Bool.and_eq_true, beq_iff_eq, List.cons.injEq]
    constructor
    · rintro ⟨rfl, h⟩; exact ⟨t, ⟨rfl, rfl⟩, h⟩
    · rintro ⟨t2, ⟨rfl, rfl⟩, h⟩; exact ⟨rfl, h⟩

theorem glob_nil (s : List Char) : glob [] s = true ↔ s = [] := by
  cases s <;> simp [glob]

theorem glob_star (p s : List Char) : glob ('*' :: p) s = star (glob p) s := by
  simp [glob]

theorem glob_dot_so (t : List Char) :
    glob ['.', 's', 'o'] t = true ↔ t = ['.', 's', 'o'] := by
  rw [glob_lit _ _ _ (by decide) (by decide)]
  constructor
  · rintro ⟨t1, rfl, h⟩
    rw [glob_lit _ _ _ (by decide) (by decide)] at h
    obtain ⟨t2, rfl, h⟩ := h
    rw [glob_lit _ _ _ (by decide) (by decide)] at h
    obtain ⟨t3, rfl, h⟩ := h
    rw [glob_nil] at h
    rw [h]
  · rintro rfl
    refine ⟨_, rfl, ?_⟩
    decide

theorem fnmatch_htm_so (d_name : String) :
    fnmatch "htm_*.so" d_name = true ↔
      ∃ mid, d_name.data = "htm_".data ++ mid ++ ".so".data := by
  have hp : "htm_*.so".data = ['h', 't', 'm', '_', '*', '.', 's', 'o'] := rfl
  have h1 : "htm_".data = ['h', 't', 'm', '_'] := rfl
  have h2 : ".so".data = ['.', 's', 'o'] := rfl
  unfold fnmatch
  rw [hp, h1, h2]
  generalize d_name.data = s
  constructor
  · intro h
    rw [glob_lit _ _ _ (by decide) (by decide)] at h
    obtain ⟨t1, rfl, h⟩ := h
    rw [glob_lit _ _ _ (by decide) (by decide)] at h
    obtain ⟨t2, rfl, h⟩ := h
    rw [glob_lit _ _ _ (by decide) (by decide)] at h
    obtain ⟨t3, rfl, h⟩ := h
    rw [glob_lit _ _ _ (by decide) (by decide)] at h
    obtain ⟨t4, rfl, h⟩ := h
    rw [glob_star, star_iff] at h
    obtain ⟨mid, t, rfl, h⟩ := h
    rw [glob_dot_so] at h
    exact ⟨mid, by rw [h]; simp⟩
  · rintro ⟨mid, rfl⟩
    rw [glob_lit _ _ _ (by decide) (by decide)]
    refine ⟨_, rfl, ?_⟩
    rw [glob_lit _ _ _ (by decide) (by decide)]
    refine ⟨_, rfl, ?_⟩
    rw [glob_lit _ _ _ (by decide) (by decide)]
    refine ⟨_, rfl, ?_⟩
    rw [glob_lit _ _ _ (by decide) (by decide)]
    refine ⟨_, rfl, ?_⟩
    rw [glob_star, star_iff]
    exact ⟨mid, _, rfl, (glob_dot_so _).mpr rfl⟩

theorem is_candidate_iff (d_name : String) :
    is_candidate d_name ↔ ∃ mid, d_name.data = "htm_".data ++ mid ++ ".so".data := by
  have h1 : "htm_".data = ['h', 't', 'm', '_'] := rfl
  have h2 : ".so".data = ['.', 's', 'o'] := rfl
  have hl : d_name.length = d_name.data.length := rfl
  unfold is_candidate
  rw [h1, h2, hl]
  generalize d_name.data = s
  constructor
  · rintro ⟨⟨t, ht⟩, ⟨u, hu⟩, hlen⟩
    have e : ['h', 't', 'm', '_'] ++ t = u ++ ['.', 's', 'o'] := by rw [← ht, hu]
    rcases List.append_eq_append_iff.mp e with ⟨a, ha, hb⟩ | ⟨c, hc, hd⟩
    · exact ⟨a, by rw [ht, hb]; simp⟩
    · have l1 : t.length ≥ 3 := by
        rw [ht] at hlen
        simp at hlen
        omega
      have l2 := congrArg List.length hd
      simp at l2
      have l3 : c.length = 0 := by omega
      have c0 : c = [] := List.length_eq_zero.mp l3
      rw [c0] at hd hc
      simp at hd
      exact ⟨[], by rw [ht, ← hd]; simp⟩
  · rintro ⟨mid, rfl⟩
    refine ⟨⟨mid ++ ['.', 's', 'o'], by simp⟩, ⟨['h', 't', 'm', '_'] ++ mid, by simp⟩, ?_⟩
    simp

/-! ## Discovery: the loop of `load_plugins` -/

theorem snprintf_full_path (dir d_name : String) :
    snprintf (dir.length + d_name.length + 2) (dir ++ "/" ++ d_name) = full_path dir d_name := by
  have hl : (dir ++ "/" ++ d_name).data.length ≤ dir.length + d_name.length + 2 - 1 := by
    have h : (dir ++ "/" ++ d_name).data.length = (dir ++ "/" ++ d_name).length := rfl
    rw [h, String.length_append, String.length_append]
    have h1 : ("/" : String).length = 1 := rfl
    omega
  unfold snprintf full_path
  rw [List.take_of_length_le hl]

theorem full_path_injective (dir a b : String) (h : full_path dir a = full_path dir b) :
    a = b := by
  have h2 := congrArg String.data h
  simp only [full_path, String.data_append, List.append_cancel_left_eq] at h2
  exact String.ext h2

theorem loader_calls_append (a b : List Event) :
    loader_calls (a ++ b) = loader_calls a ++ loader_calls b := by
  simp [loader_calls, List.filterMap_append]

theorem unload_at_err_loader_calls (p : Option Plugin) (s : State) :
    loader_calls (unload_at_err p s).trace = loader_calls s.trace := by
  unfold unload_at_err
  cases p with
  | none => rfl
  | some q =>
    dsimp only
    split
    · simp [loader_calls_append, loader_calls]
    · rfl

theorem init_plugin_loader_calls (w : World) (plugin_name : Option String) (s : State) :
    loader_calls (init_plugin w plugin_name s).2.trace =
      loader_calls s.trace ++ [plugin_name] := by
  have base : loader_calls (s.trace ++ [Event.init_plugin plugin_name]) =
      loader_calls s.trace ++ [plugin_name] := by
    simp [loader_calls_append, loader_calls]
  unfold init_plugin
  dsimp only
  repeat' split
  all_goals first
    | exact base
    | (rw [unload_at_err_loader_calls]; exact base)
    | (simp only [loader_calls_append]
       simp [loader_calls])

theorem init_plugin_plugin_list (w : World) (plugin_name : Option String) (s : State) :
    ∃ ext, (init_plugin w plugin_name s).2.plugin_list = s.plugin_list ++ ext := by
  by_cases h1 : (init_plugin w plugin_name s).1 = 1
  · obtain ⟨path, _, h⟩ := (init_plugin_cases w plugin_name s).2.1 h1
    exact ⟨_, h⟩
  · exact ⟨[], by simpa using ((init_plugin_cases w plugin_name s).2.2 h1).2⟩

theorem load_all_append (w : World) (a b : List String) (s : State) :
    load_all w (a ++ b) s = load_all w b (load_all w a s) := by
  simp [load_all, List.foldl_append]

theorem load_all_loader_calls (w : World) (paths : List String) (s : State) :
    loader_calls (load_all w paths s).trace = loader_calls s.trace ++ paths.map some := by
  induction paths generalizing s with
  | nil => simp [load_all]
  | cons p rest ih =>
    have e : load_all w (p :: rest) s = load_all w rest (init_plugin w (some p) s).2 := rfl
    rw [e, ih, init_plugin_loader_calls]
    simp

theorem load_all_keeps (w : World) (paths : List String) (s : State) (p : Plugin)
    (hp : p ∈ s.plugin_list) : p ∈ (load_all w paths s).plugin_list := by
  induction paths generalizing s with
  | nil => exact hp
  | cons q rest ih =>
    have e : load_all w (q :: rest) s = load_all w rest (init_plugin w (some q) s).2 := rfl
    rw [e]
    apply ih
    obtain ⟨ext, hx⟩ := init_plugin_plugin_list w (some q) s
    rw [hx]
    exact List.mem_append_left _ hp

theorem load_entry_ok (w : World) (dir d_name : String) (s : State)
    (hm : fnmatch "htm_*.so" d_name = true → w.malloc_path dir d_name = true) :
    load_entry w dir d_name s =
      some (if fnmatch "htm_*.so" d_name = true
        then (init_plugin w (some (full_path dir d_name)) s).2 else s) := by
  unfold load_entry
  by_cases hf : fnmatch "htm_*.so" d_name = true
  · simp [hf, hm hf, snprintf_full_path]
  · simp [hf]

theorem load_loop_ok (w : World) (dir : String) (namelist : List String)
    (hm : ∀ d_name ∈ namelist, fnmatch "htm_*.so" d_name = true →
      w.malloc_path dir d_name = true) (n : Nat)
    (hn : n ≤ namelist.length) (s : State) :
    load_loop w dir namelist n s =
      (0, load_all w ((((namelist.take n).reverse).filter
        (fun d => fnmatch "htm_*.so" d)).map (full_path dir)) s) := by
  induction n generalizing s with
  | zero => simp [load_loop, load_all]
  | succ n ih =>
    have hlt : n < namelist.length := hn
    have hget : namelist[n]? = some namelist[n] := List.getElem?_eq_getElem hlt
    have hmem : namelist[n] ∈ namelist := List.getElem_mem hlt
    have htake : namelist.take (n + 1) = namelist.take n ++ [namelist[n]] := by
      rw [List.take_succ, hget]
      rfl
    simp only [load_loop, hget, load_entry_ok w dir _ s (hm _ hmem)]
    rw [ih (Nat.le_of_lt hlt), htake, List.reverse_append]
    by_cases hf : fnmatch "htm_*.so" namelist[n] = true
    · simp [hf, load_all]
    · simp [hf]

theorem load_plugins_ok (w : World) (dir : String) (entries : List String) (s : State)
    (hopen : w.opendir dir = true) (hscan : w.readdir dir = some entries)
    (hm : ∀ d_name ∈ entries, fnmatch "htm_*.so" d_name = true →
      w.malloc_path dir d_name = true) :
    load_plugins w dir s =
      (0, load_all w ((candidates entries).map (full_path dir)) (reset w s)) := by
  have hm2 : ∀ d_name ∈ entries.insertionSort alphasort,
      fnmatch "htm_*.so" d_name = true → w.malloc_path dir d_name = true :=
    fun d hd => hm d ((List.perm_insertionSort alphasort entries).subset hd)
  unfold load_plugins
  simp only [hopen, hscan]
  rw [if_neg (by decide)]
  rw [load_loop_ok w dir _ hm2 _ (Nat.le_refl _), List.take_length]
  rfl

theorem load_plugins_fails (w : World) (dir : String) (s : State)
    (h : w.opendir dir = false ∨ w.readdir dir = none) :
    load_plugins w dir s = (-1, reset w s) := by
  unfold load_plugins
  by_cases ho : w.opendir dir = false
  · simp [ho, reset]
  · rcases h with h | h
    · exact absurd h ho
    · simp [ho, h, reset]

theorem load_plugins_calls (w : World) (dir : String) (entries : List String)
    (s : State) (hopen : w.opendir dir = true) (hscan : w.readdir dir = some entries)
    (hm : ∀ d_name ∈ entries, fnmatch "htm_*.so" d_name = true →
      w.malloc_path dir d_name = true) :
    loader_calls (load_plugins w dir s).2.trace =
      loader_calls s.trace ++ (candidates entries).map (fun d => some (full_path dir d)) := by
  rw [load_plugins_ok w dir entries s hopen hscan hm, load_all_loader_calls]
  simp [reset, List.map_map, Function.comp_def]

/-! ## Discovery: what `load_plugins` loads, and in which order -/

/-- C2, as the code has it: with a readable directory and memory for every path,
`load_plugins` hands the matching names to `init_plugin` in descending order: the
calls are the paths of `candidates entries`, which are the matching entries, each
once, every name before the names that `alphasort` puts before it. -/
theorem load_plugins_descending_order (w : World) (dir : String) (entries : List String)
    (s : State) (hopen : w.opendir dir = true) (hscan : w.readdir dir = some entries)
    (hm : ∀ d_name ∈ entries, fnmatch "htm_*.so" d_name = true →
      w.malloc_path dir d_name = true) :
    loader_calls (load_plugins w dir s).2.trace =
      loader_calls s.trace ++ (candidates entries).map (fun d => some (full_path dir d)) ∧
    List.Sorted (fun a b => alphasort b a) (candidates entries) ∧
    (candidates entries).Perm (entries.filter (fun d => fnmatch "htm_*.so" d)) :=
  ⟨load_plugins_calls w dir entries s hopen hscan hm, candidates_descending entries,
    candidates_perm entries⟩

/-- C2 at a directory with `htm_b.so`, `notes.txt` and `htm_a.so`: the hypotheses
hold and `htm_b.so` is loaded before `htm_a.so`. -/
theorem load_plugins_descending_order_witness :
    loader_calls (load_plugins listing_world "plugins" empty_state).2.trace =
      loader_calls empty_state.trace ++ (candidates ["htm_b.so", "notes.txt", "htm_a.so"]).map
        (fun d => some (full_path "plugins" d)) ∧
    candidates ["htm_b.so", "notes.txt", "htm_a.so"] = ["htm_b.so", "htm_a.so"] :=
  ⟨(load_plugins_descending_order listing_world "plugins"
      ["htm_b.so", "notes.txt", "htm_a.so"] empty_state rfl rfl (fun _ _ _ => rfl)).1,
    by decide⟩

/-- C2 refuted as stated: in a directory with `htm_a.so` and `htm_b.so` the loader is
called on `htm_b.so` first, so the calls are not the ascending list of the matching
names. -/
theorem load_plugins_not_ascending :
    loader_calls (load_plugins listing_world "plugins" empty_state).2.trace =
      [some "plugins/htm_b.so", some "plugins/htm_a.so"] ∧
    alphasort "htm_a.so" "htm_b.so" ∧ ¬ alphasort "htm_b.so" "htm_a.so" ∧
    loader_calls (load_plugins listing_world "plugins" empty_state).2.trace ≠
      [some "plugins/htm_a.so", some "plugins/htm_b.so"] := by
  refine ⟨by decide, by decide, by decide, by decide⟩

/-- C5: with a readable directory (and memory for every path), `load_plugins` calls
`init_plugin` once for each matching entry, whatever the calls before returned, and
returns 0; every candidate whose own call of `init_plugin` returns 1 has its
descriptor in the registry at the end. -/
theorem load_plugins_loads_every_candidate (w : World) (dir : String)
    (entries : List String) (s : State)
    (hopen : w.opendir dir = true) (hscan : w.readdir dir = some entries)
    (hm : ∀ d_name ∈ entries, fnmatch "htm_*.so" d_name = true →
      w.malloc_path dir d_name = true) :
    (load_plugins w dir s).1 = 0 ∧
    (∃ calls, loader_calls (load_plugins w dir s).2.trace = loader_calls s.trace ++ calls ∧
      calls.Perm ((entries.filter (fun d => fnmatch "htm_*.so" d)).map
        (fun d => some (full_path dir d)))) ∧
    (load_plugins w dir s).2 =
      load_all w ((candidates entries).map (full_path dir)) (reset w s) ∧
    (∀ pre c post, (candidates entries).map (full_path dir) = pre ++ c :: post →
      (init_plugin w (some c) (load_all w pre (reset w s))).1 = 1 →
      descriptor w c ∈ (load_plugins w dir s).2.plugin_list) := by
  have e := load_plugins_ok w dir entries s hopen hscan hm
  refine ⟨by rw [e], ?_, by rw [e], ?_⟩
  · refine ⟨(candidates entries).map (fun d => some (full_path dir d)), ?_, ?_⟩
    · exact load_plugins_calls w dir entries s hopen hscan hm
    · exact (candidates_perm entries).map _
  · intro pre c post hsplit hret
    rw [e]
    dsimp only
    rw [hsplit, load_all_append]
    have e2 : load_all w (c :: post) (load_all w pre (reset w s)) =
        load_all w post (init_plugin w (some c) (load_all w pre (reset w s))).2 := rfl
    rw [e2]
    apply load_all_keeps
    obtain ⟨path, hpath, hlist⟩ :=
      (init_plugin_cases w (some c) (load_all w pre (reset w s))).2.1 hret
    have hc : c = path := Option.some.inj hpath
    rw [hlist, ← hc]
    exact List.mem_append_right _ (List.mem_singleton.mpr rfl)

/-- C5 at a directory with three plugins of which the second has no
`module_version`: the hypotheses hold, all three are tried, and the first and the
last loaded are in the registry. -/
theorem load_plugins_loads_every_candidate_witness :
    (load_plugins mixed_world "plugins" empty_state).1 = 0 ∧
    loader_calls (load_plugins mixed_world "plugins" empty_state).2.trace =
      [some "plugins/htm_c.so", some "plugins/htm_b.so", some "plugins/htm_a.so"] ∧
    (load_plugins mixed_world "plugins" empty_state).2.plugin_list.map Plugin.name =
      [some "C", some "A"] :=
  ⟨(load_plugins_loads_every_candidate mixed_world "plugins"
      ["htm_a.so", "htm_b.so", "htm_c.so"] empty_state rfl rfl (fun _ _ _ => rfl)).1,
    by decide, by decide⟩

/-- C6: an entry is handed to the loader iff its name matches `htm_*.so`, which is:
it begins with `htm_`, ends with `.so` and has at least 7 characters. The path of the
call is the directory, a `/` and the name (the bound of `snprintf` cuts nothing).
Stated for one round of the loop and for the calls of a whole run of `load_plugins`
on a readable directory. -/
theorem load_plugins_iff_pattern (w : World) (dir : String) (entries : List String)
    (s : State) (hopen : w.opendir dir = true) (hscan : w.readdir dir = some entries)
    (hm : ∀ d_name ∈ entries, fnmatch "htm_*.so" d_name = true →
      w.malloc_path dir d_name = true) :
    (∀ d_name, fnmatch "htm_*.so" d_name = true ↔ is_candidate d_name) ∧
    (∀ d_name, snprintf (dir.length + d_name.length + 2) (dir ++ "/" ++ d_name) =
      dir ++ "/" ++ d_name) ∧
    (∀ d_name ∈ entries, ∀ st,
      (is_candidate d_name →
        load_entry w dir d_name st =
          some (init_plugin w (some (dir ++ "/" ++ d_name)) st).2) ∧
      (¬ is_candidate d_name → load_entry w dir d_name st = some st)) ∧
    (∃ calls,
      loader_calls (load_plugins w dir s).2.trace = loader_calls s.trace ++ calls ∧
      (∀ d_name ∈ entries, some (dir ++ "/" ++ d_name) ∈ calls ↔ is_candidate d_name) ∧
      (∀ c ∈ calls, ∃ d_name ∈ entries, is_candidate d_name ∧
        c = some (dir ++ "/" ++ d_name))) := by
  have hiff : ∀ d_name, fnmatch "htm_*.so" d_name = true ↔ is_candidate d_name :=
    fun d_name => (fnmatch_htm_so d_name).trans (is_candidate_iff d_name).symm
  have hmemc : ∀ d, d ∈ candidates entries ↔ d ∈ entries ∧ is_candidate d := by
    intro d
    rw [(candidates_perm entries).mem_iff, List.mem_filter, hiff]
  refine ⟨hiff, snprintf_full_path dir, ?_, ?_⟩
  · intro d_name hd st
    have he := load_entry_ok w dir d_name st (hm d_name hd)
    constructor
    · intro hc
      rw [he, if_pos ((hiff d_name).mpr hc)]
      rfl
    · intro hc
      have hf : ¬ fnmatch "htm_*.so" d_name = true := fun h => hc ((hiff d_name).mp h)
      rw [he, if_neg hf]
  · refine ⟨(candidates entries).map (fun d => some (full_path dir d)),
      load_plugins_calls w dir entries s hopen hscan hm, ?_, ?_⟩
    · intro d_name hd
      constructor
      · intro hmem
        obtain ⟨d2, hd2, heq⟩ := List.mem_map.mp hmem
        have h2 : d2 = d_name := full_path_injective dir d2 d_name (Option.some.inj heq)
        rw [← h2]
        exact ((hmemc d2).mp hd2).2
      · intro hc
        exact List.mem_map.mpr ⟨d_name, (hmemc d_name).mpr ⟨hd, hc⟩, rfl⟩
    · intro c hc
      obtain ⟨d2, hd2, heq⟩ := List.mem_map.mp hc
      exact ⟨d2, ((hmemc d2).mp hd2).1, ((hmemc d2).mp hd2).2, heq.symm⟩

/-- C6 at the directory with `htm_b.so`, `notes.txt` and `htm_a.so`, and at the names
`htm_.so` (the shortest match), `htm_so`, `htm_a.so.bak` and `xhtm_a.so`. -/
theorem load_plugins_iff_pattern_witness :
    (fnmatch "htm_*.so" "htm_.so" = true ↔ is_candidate "htm_.so") ∧
    fnmatch "htm_*.so" "htm_.so" = true ∧
    fnmatch "htm_*.so" "htm_so" = false ∧
    fnmatch "htm_*.so" "htm_a.so.bak" = false ∧
    fnmatch "htm_*.so" "xhtm_a.so" = false ∧
    fnmatch "htm_*.so" "notes.txt" = false ∧
    loader_calls (load_plugins listing_world "plugins" empty_state).2.trace =
      [some "plugins/htm_b.so", some "plugins/htm_a.so"] :=
  ⟨(load_plugins_iff_pattern listing_world "plugins" ["htm_b.so", "notes.txt", "htm_a.so"]
      empty_state rfl rfl (fun _ _ _ => rfl)).1 "htm_.so",
    by decide, by decide, by decide, by decide, by decide, by decide⟩

/-- C8, as the code has it: when the directory cannot be opened or scanned,
`load_plugins` returns -1 after it has reset `plugin_list`: the registry after the
call is empty, no handle is closed and no plugin is loaded; the registry is the one
from before the call only when that one was empty. -/
theorem load_plugins_unreadable (w : World) (dir : String) (s : State)
    (h : w.opendir dir = false ∨ w.readdir dir = none) :
    (load_plugins w dir s).1 = -1 ∧
    (load_plugins w dir s).2.plugin_list = [] ∧
    (load_plugins w dir s).2.trace = s.trace ∧
    ((load_plugins w dir s).2.plugin_list = s.plugin_list ↔ s.plugin_list = []) := by
  rw [load_plugins_fails w dir s h]
  refine ⟨rfl, rfl, rfl, ?_⟩
  exact ⟨fun h => h.symm, fun h => h.symm⟩

/-- C8 as the code has it, at an unreadable directory with three plugins loaded. -/
theorem load_plugins_unreadable_witness :
    (load_plugins unreadable_world "plugins" loaded_abc).1 = -1 ∧
    (load_plugins unreadable_world "plugins" loaded_abc).2.plugin_list = [] :=
  have h := load_plugins_unreadable unreadable_world "plugins" loaded_abc (Or.inl rfl)
  ⟨h.1, h.2.1⟩

/-- C8 refuted as stated: with three plugins loaded and an unreadable directory,
`load_plugins` returns -1 and the registry after the call is not the registry from
before: its three descriptors are gone. -/
theorem load_plugins_unreadable_drops_registry :
    unreadable_world.opendir "plugins" = false ∧
    loaded_abc.plugin_list.length = 3 ∧
    (load_plugins unreadable_world "plugins" loaded_abc).1 = -1 ∧
    (load_plugins unreadable_world "plugins" loaded_abc).2.plugin_list ≠
      loaded_abc.plugin_list := by
  refine ⟨rfl, by decide, by decide, by decide⟩

/-- Without memory for the path of `htm_b.so`, `load_plugins` returns -1 after the
load of `htm_c.so` and does not reach `htm_a.so`. -/
theorem load_plugins_out_of_memory :
    (load_plugins oom_world "plugins" empty_state).1 = -1 ∧
    loader_calls (load_plugins oom_world "plugins" empty_state).2.trace =
      [some "plugins/htm_c.so"] := by
  refine ⟨by decide, by decide⟩

/-! ## The dump file name of htm_aSaveFile -/

/-- C10 at port 65535, process id 100000 and the date 2006-01-01: the file name with
its NUL byte needs one byte more than the `strlen(attacks_dir) + 34` allocated,
whatever the directory; in the directory `attacks` it is 42 bytes for a buffer of
41. -/
theorem dump_filename_overflows (attacks_dir : String) :
    aSaveFile.sprintf_bytes
        (aSaveFile.dump_filename attacks_dir 65535 100000 (some ⟨106, 0, 1⟩)) =
      aSaveFile.filename_alloc attacks_dir + 1 ∧
    aSaveFile.dump_filename "attacks" 65535 100000 (some ⟨106, 0, 1⟩) =
      "attacks/from_port_65535_100000-2006-01-01" ∧
    aSaveFile.sprintf_bytes
        (aSaveFile.dump_filename "attacks" 65535 100000 (some ⟨106, 0, 1⟩)) = 42 ∧
    aSaveFile.filename_alloc "attacks" = 41 := by
  refine ⟨?_, by decide, by decide, by decide⟩
  have h1 : (aSaveFile.fmt_u 65535).length = 5 := by decide
  have h2 : (aSaveFile.fmt_u 100000).length = 6 := by decide
  have h3 : (aSaveFile.fmt_0d 4 ((106 : Int) + 1900)).length = 4 := by decide
  have h4 : (aSaveFile.fmt_0d 2 ((0 : Int) + 1)).length = 2 := by decide
  have h5 : (aSaveFile.fmt_0d 2 (1 : Int)).length = 2 := by decide
  have h6 : ("/from_port_" : String).length = 11 := by decide
  have h7 : ("_" : String).length = 1 := by decide
  have h8 : ("-" : String).length = 1 := by decide
  simp only [aSaveFile.sprintf_bytes, aSaveFile.dump_filename, aSaveFile.filename_alloc,
    String.length_append, h1, h2, h3, h4, h5, h6, h7, h8]

end Honeytrap
